import Mathlib

/-!
Shallow embedding of the MAX72 LED driver class (sources: MAX72.h, MAX72.cpp).

Modelling conventions:
* A value of the C type uint8_t is a Nat; parameters that arrive through a
  uint8_t argument are assumed < 256 (stated as hypotheses on the theorems),
  and every store into the uint8_t array _displayCache truncates with % 256.
* The C int arithmetic inside setPixel (the expressions HIGH << segment and
  the bitwise complement) is modelled as 32-bit: the shift is reduced % 2 ^ 32
  and the complement of m is (2 ^ 32 - 1) ^^^ m.
* The SPI bus is modelled as a trace: writeRegister appends the pair
  (register address, value) to the writes list of the state; nothing else in
  the class observes the bus.
* The guard written 0 <= digit < _numDigits in the source parses in C as
  (0 <= digit) < _numDigits: the comparison 0 <= digit yields the int 1, so
  the whole guard is the digit-independent test 1 < _numDigits.  boundsGuard
  reproduces that parse literally.
* Loops of the form for (i = 0; i < _numDigits; i++) are folds over
  List.range numDigits.  In setMatrix and setColumns the uint8_t variable
  colmask starts at 1 and is doubled (as uint8_t, hence mod 256) once per
  iteration, so at iteration i its value is 2 ^ i % 256.
-/

/-- Macro DIGITREGISTER(x) ((x) + 1) from MAX72.h: digit registers on the
wire are 1-8 for digits 0-7. -/
def DIGITREGISTER (x : Nat) : Nat := x + 1

/-- Register address 0x9 from MAX72.h. -/
def DECODEMODE : Nat := 0x9

/-- Register address 0xA from MAX72.h. -/
def INTENSITY : Nat := 0xA

/-- Register address 0xB from MAX72.h. -/
def SCANLIMIT : Nat := 0xB

/-- Register address 0xC from MAX72.h. -/
def SHUTDOWN : Nat := 0xC

/-- Register address 0xF from MAX72.h (defined but unused). -/
def DISPLAYTEST : Nat := 0xF

/-- Symbolic constant HIGH = 1 from MAX72.cpp. -/
def HIGH : Nat := 1

/-- Driver state: the private members _numDigits and _displayCache of the
MAX72 class, plus the trace of register writes the instance has issued over
the SPI bus.  The cache is a function on Nat whose meaningful slots are
indices 0-7 (the uint8_t array _displayCache[8]). -/
@[ext]
structure MAX72 where
  numDigits : Nat
  displayCache : Nat → Nat
  writes : List (Nat × Nat)

/-- MAX72::writeRegister(chipRegister, chipValue): asserts chip select,
transfers the register address then the value, releases chip select.  In the
model this appends one (address, value) pair to the trace. -/
def writeRegister (s : MAX72) (chipRegister chipValue : Nat) : MAX72 :=
  { s with writes := s.writes ++ [(chipRegister, chipValue)] }

/-- The two-statement pattern used by every display operation in MAX72.cpp:
store a value into the uint8_t cache slot (truncating to a byte), then write
the freshly stored cache value to the corresponding digit register. -/
def cacheWrite (s : MAX72) (i v : Nat) : MAX72 :=
  let s' : MAX72 := { s with displayCache := Function.update s.displayCache i (v % 256) }
  writeRegister s' (DIGITREGISTER i) (s'.displayCache i)

/-- MAX72::dispClear(): for i < _numDigits, set cache slot i to 0x0 and write
it to digit register i+1. -/
def dispClear (s : MAX72) : MAX72 :=
  (List.range s.numDigits).foldl (fun t i => cacheWrite t i 0x0) s

/-- MAX72::dispAll(): for i < _numDigits, set cache slot i to 0xff and write
it to digit register i+1. -/
def dispAll (s : MAX72) : MAX72 :=
  (List.range s.numDigits).foldl (fun t i => cacheWrite t i 0xff) s

/-- MAX72::dispRefresh(): for i < _numDigits, write the current cache slot i
to digit register i+1 without modifying the cache. -/
def dispRefresh (s : MAX72) : MAX72 :=
  (List.range s.numDigits).foldl
    (fun t i => writeRegister t (DIGITREGISTER i) (t.displayCache i)) s

/-- MAX72::setIntensity(intensity): write the value to the intensity register
only when it is at most 0xf. -/
def setIntensity (s : MAX72) (intensity : Nat) : MAX72 :=
  if intensity ≤ 0xf then writeRegister s INTENSITY intensity else s

/-- The guard 0 <= digit < numDigits as C parses it:
(0 <= digit) < numDigits, where the comparison 0 <= digit evaluates to the
int 1 (it is true for every unsigned digit). -/
def boundsGuard (digit numDigits : Nat) : Bool :=
  decide ((if 0 ≤ digit then 1 else 0) < numDigits)

/-- MAX72::setDigit(digit, segments): under the (mis-parsed) bounds guard,
store segments into cache slot digit and write it to digit register
digit+1. -/
def setDigit (s : MAX72) (digit segments : Nat) : MAX72 :=
  if boundsGuard digit s.numDigits then cacheWrite s digit segments else s

/-- MAX72::setMatrix(digits, segments): for i < _numDigits, with
colmask = 2 ^ i % 256, if colmask & digits is nonzero set cache slot i to
segments, else to 0x0, writing each slot to its register either way. -/
def setMatrix (s : MAX72) (digits segments : Nat) : MAX72 :=
  (List.range s.numDigits).foldl
    (fun t i =>
      if (2 ^ i % 256) &&& digits ≠ 0 then cacheWrite t i segments
      else cacheWrite t i 0x0)
    s

/-- MAX72::setRows(segments): for i < _numDigits, set cache slot i to
segments and write it. -/
def setRows (s : MAX72) (segments : Nat) : MAX72 :=
  (List.range s.numDigits).foldl (fun t i => cacheWrite t i segments) s

/-- MAX72::setColumns(digits): for i < _numDigits, with colmask = 2 ^ i % 256,
set cache slot i to 0xff when colmask & digits is nonzero, else to 0x0,
writing each slot. -/
def setColumns (s : MAX72) (digits : Nat) : MAX72 :=
  (List.range s.numDigits).foldl
    (fun t i =>
      if (2 ^ i % 256) &&& digits ≠ 0 then cacheWrite t i 0xff
      else cacheWrite t i 0x0)
    s

/-- MAX72::setPixel(digit, segment, state): early-return when the
(mis-parsed) bounds guard fails; otherwise OR the bit HIGH << segment into
cache slot digit (state true) or AND with its complement (state false), and
write the slot.  The int shift and complement are modelled as 32-bit. -/
def setPixel (s : MAX72) (digit segment : Nat) (state : Bool) : MAX72 :=
  if boundsGuard digit s.numDigits then
    if state then
      cacheWrite s digit (s.displayCache digit ||| (HIGH <<< segment) % 2 ^ 32)
    else
      cacheWrite s digit
        (s.displayCache digit &&& ((2 ^ 32 - 1) ^^^ (HIGH <<< segment) % 2 ^ 32))
  else s

/-- The constructor MAX72::MAX72(chipSelect, numdigits): records the digit
count, then issues the fixed initialization sequence of register writes.  The
uint8_t array _displayCache is uninitialized at entry to the constructor; the
model takes its arbitrary contents as the parameter c0 (each slot being a
byte, c0 is read mod 256).  Pin and SPI-mode setup have no effect on the
modelled state. -/
def construct (chipSelect numdigits : Nat) (c0 : Nat → Nat) : MAX72 :=
  let s0 : MAX72 :=
    { numDigits := numdigits, displayCache := fun i => c0 i % 256, writes := [] }
  let s1 := writeRegister s0 SHUTDOWN 0x0
  let s2 := dispClear s1
  let s3 := writeRegister s2 SCANLIMIT (numdigits - 1)
  let s4 := writeRegister s3 DECODEMODE 0x0
  let s5 := writeRegister s4 INTENSITY 0xf
  writeRegister s5 SHUTDOWN 0x1

/-- One public operation of the class, with its uint8_t (or boolean)
arguments. -/
inductive Op where
  | clear : Op
  | all : Op
  | refresh : Op
  | intensity : Nat → Op
  | digitSet : Nat → Nat → Op
  | matrix : Nat → Nat → Op
  | rows : Nat → Op
  | columns : Nat → Op
  | pixel : Nat → Nat → Bool → Op

/-- Dispatch one public operation on a driver state. -/
def applyOp (s : MAX72) : Op → MAX72
  | Op.clear => dispClear s
  | Op.all => dispAll s
  | Op.refresh => dispRefresh s
  | Op.intensity n => setIntensity s n
  | Op.digitSet d v => setDigit s d v
  | Op.matrix d g => setMatrix s d g
  | Op.rows g => setRows s g
  | Op.columns d => setColumns s d
  | Op.pixel d g b => setPixel s d g b

/-- Run a sequence of public operations. -/
def applyOps (s : MAX72) (ops : List Op) : MAX72 :=
  ops.foldl applyOp s

/-- An operation is valid when its byte arguments are in uint8_t range and
its digit index stays inside the 8-slot cache array (an out-of-range digit
index would be an out-of-bounds array access in the C source). -/
def validOp : Op → Bool
  | Op.intensity n => decide (n < 256)
  | Op.digitSet d v => decide (d < 8) && decide (v < 256)
  | Op.matrix d g => decide (d < 256) && decide (g < 256)
  | Op.rows g => decide (g < 256)
  | Op.columns d => decide (d < 256)
  | Op.pixel d g _ => decide (d < 8) && decide (g < 256)
  | _ => true

/-- The value carried by the most recent write to register r in the trace,
if any. -/
def lastWrite (r : Nat) (ws : List (Nat × Nat)) : Option Nat :=
  ws.foldl (fun acc p => if p.1 = r then some p.2 else acc) none

/-- Cache-hardware consistency: every digit slot whose digit register has
been written holds exactly the value of the most recent write to that
register. -/
def cacheInv (s : MAX72) : Prop :=
  ∀ i, i < 8 → ∀ v, lastWrite (DIGITREGISTER i) s.writes = some v →
    s.displayCache i = v

/-! Helper lemmas about the embedding. -/

theorem cacheWrite_def (s : MAX72) (i v : Nat) :
    cacheWrite s i v =
      { numDigits := s.numDigits,
        displayCache := Function.update s.displayCache i (v % 256),
        writes := s.writes ++ [(DIGITREGISTER i, v % 256)] } := by
  simp [cacheWrite, writeRegister, Function.update_same]

theorem foldl_preserve {α β : Type} (P : α → Prop) (f : α → β → α)
    (h : ∀ a b, P a → P (f a b)) :
    ∀ (l : List β) (a : α), P a → P (l.foldl f a) := by
  intro l
  induction l with
  | nil => exact fun a ha => ha
  | cons x xs ih => exact fun a ha => ih (f a x) (h a x ha)

theorem lastWrite_append_single (r : Nat) (ws : List (Nat × Nat)) (a v : Nat) :
    lastWrite r (ws ++ [(a, v)]) = if a = r then some v else lastWrite r ws := by
  simp [lastWrite, List.foldl_append]

theorem cacheInv_cacheWrite (s : MAX72) (i v : Nat) (h : cacheInv s) :
    cacheInv (cacheWrite s i v) := by
  rw [cacheWrite_def]
  intro j hj w hw
  dsimp only at hw ⊢
  rw [lastWrite_append_single] at hw
  by_cases hij : DIGITREGISTER i = DIGITREGISTER j
  · have hij' : i = j := by simpa [DIGITREGISTER] using hij
    subst hij'
    rw [if_pos hij] at hw
    rw [Function.update_same]
    exact (Option.some.injEq _ _).mp hw
  · rw [if_neg hij] at hw
    have hij' : j ≠ i := fun hc => hij (by rw [hc])
    rw [Function.update_noteq hij']
    exact h j hj w hw

theorem cacheInv_writeRegister_high (s : MAX72) (r v : Nat) (hr : 9 ≤ r)
    (h : cacheInv s) : cacheInv (writeRegister s r v) := by
  intro j hj w hw
  dsimp only [writeRegister] at hw ⊢
  rw [lastWrite_append_single] at hw
  rw [if_neg (by simp only [DIGITREGISTER]; omega)] at hw
  exact h j hj w hw

theorem cacheInv_writeRegister_cache (s : MAX72) (i : Nat)
    (h : cacheInv s) : cacheInv (writeRegister s (DIGITREGISTER i) (s.displayCache i)) := by
  intro j hj w hw
  dsimp only [writeRegister] at hw ⊢
  rw [lastWrite_append_single] at hw
  by_cases hij : DIGITREGISTER i = DIGITREGISTER j
  · have hij' : i = j := by simpa [DIGITREGISTER] using hij
    subst hij'
    rw [if_pos hij] at hw
    exact (Option.some.injEq _ _).mp hw
  · rw [if_neg hij] at hw
    exact h j hj w hw

theorem foldl_cacheWrite_range (f : Nat → Nat) (n : Nat) (s : MAX72) :
    (List.range n).foldl (fun t i => cacheWrite t i (f i)) s =
      { numDigits := s.numDigits,
        displayCache := fun j => if j < n then f j % 256 else s.displayCache j,
        writes := s.writes ++ (List.range n).map (fun i => (DIGITREGISTER i, f i % 256)) } := by
  induction n with
  | zero =>
    refine MAX72.ext rfl ?_ ?_
    · funext j; simp
    · simp
  | succ n ih =>
    rw [List.range_succ, List.foldl_append, ih]
    dsimp only [List.foldl]
    rw [cacheWrite_def]
    refine MAX72.ext rfl ?_ ?_
    · funext j
      dsimp only
      by_cases hj : j = n
      · subst hj
        rw [Function.update_same, if_pos (Nat.lt_succ_self j)]
      · rw [Function.update_noteq hj]
        by_cases hlt : j < n
        · rw [if_pos hlt, if_pos (by omega)]
        · rw [if_neg hlt, if_neg (by omega)]
    · simp [List.range_succ]

theorem foldl_refresh_range (n : Nat) (s : MAX72) :
    (List.range n).foldl
      (fun t i => writeRegister t (DIGITREGISTER i) (t.displayCache i)) s =
      { s with writes := s.writes ++
          (List.range n).map (fun i => (DIGITREGISTER i, s.displayCache i)) } := by
  induction n with
  | zero =>
    refine MAX72.ext rfl rfl ?_
    simp
  | succ n ih =>
    rw [List.range_succ, List.foldl_append, ih]
    dsimp only [List.foldl, writeRegister]
    refine MAX72.ext rfl rfl ?_
    simp [List.range_succ]

theorem dispClear_char (s : MAX72) :
    dispClear s =
      { numDigits := s.numDigits,
        displayCache := fun j => if j < s.numDigits then 0 else s.displayCache j,
        writes := s.writes ++
          (List.range s.numDigits).map (fun i => (DIGITREGISTER i, 0)) } := by
  have h := foldl_cacheWrite_range (fun _ => 0x0) s.numDigits s
  simpa [dispClear] using h

theorem setRows_char (s : MAX72) (g : Nat) :
    setRows s g =
      { numDigits := s.numDigits,
        displayCache := fun j => if j < s.numDigits then g % 256 else s.displayCache j,
        writes := s.writes ++
          (List.range s.numDigits).map (fun i => (DIGITREGISTER i, g % 256)) } :=
  foldl_cacheWrite_range (fun _ => g) s.numDigits s

theorem setMatrix_char (s : MAX72) (dm gm : Nat) :
    setMatrix s dm gm =
      { numDigits := s.numDigits,
        displayCache := fun j =>
          if j < s.numDigits then (if (2 ^ j % 256) &&& dm ≠ 0 then gm else 0x0) % 256
          else s.displayCache j,
        writes := s.writes ++ (List.range s.numDigits).map
          (fun i => (DIGITREGISTER i, (if (2 ^ i % 256) &&& dm ≠ 0 then gm else 0x0) % 256)) } := by
  have hbody : (fun (t : MAX72) (i : Nat) =>
      if (2 ^ i % 256) &&& dm ≠ 0 then cacheWrite t i gm else cacheWrite t i 0x0)
      = fun t i => cacheWrite t i (if (2 ^ i % 256) &&& dm ≠ 0 then gm else 0x0) := by
    funext t i
    by_cases h : (2 ^ i % 256) &&& dm ≠ 0
    · rw [if_pos h, if_pos h]
    · rw [if_neg h, if_neg h]
  rw [setMatrix, hbody]
  exact foldl_cacheWrite_range (fun i => if (2 ^ i % 256) &&& dm ≠ 0 then gm else 0x0)
    s.numDigits s

theorem dispRefresh_char (s : MAX72) :
    dispRefresh s =
      { s with writes := s.writes ++
          (List.range s.numDigits).map (fun i => (DIGITREGISTER i, s.displayCache i)) } :=
  foldl_refresh_range s.numDigits s

theorem boundsGuard_eq (d n : Nat) : boundsGuard d n = decide (1 < n) := by
  simp [boundsGuard]

theorem setDigit_pos (s : MAX72) (d v : Nat) (h : 1 < s.numDigits) :
    setDigit s d v = cacheWrite s d v := by
  simp [setDigit, boundsGuard_eq, h]

theorem setDigit_neg (s : MAX72) (d v : Nat) (h : s.numDigits ≤ 1) :
    setDigit s d v = s := by
  simp [setDigit, boundsGuard_eq]
  omega

theorem setPixel_neg (s : MAX72) (d g : Nat) (b : Bool) (h : s.numDigits ≤ 1) :
    setPixel s d g b = s := by
  simp [setPixel, boundsGuard_eq]
  intro hc
  omega

theorem two_pow_and_ne_zero (i dm : Nat) : 2 ^ i &&& dm ≠ 0 ↔ dm.testBit i = true := by
  constructor
  · intro h
    by_contra hb
    apply h
    apply Nat.eq_of_testBit_eq
    intro j
    simp only [Nat.testBit_and, Nat.testBit_two_pow, Nat.zero_testBit]
    by_cases hij : i = j
    · subst hij
      simp [Bool.eq_false_iff.mpr hb]
    · simp [hij]
  · intro h hz
    have h2 := congrArg (fun x => x.testBit i) hz
    simp only [Nat.testBit_and, Nat.testBit_two_pow, Nat.zero_testBit, decide_eq_true_eq] at h2
    simp [h] at h2

theorem testBit_of_lt_256 (c j : Nat) (hc : c < 256) (hj : 8 ≤ j) :
    c.testBit j = false := by
  refine Nat.testBit_lt_two_pow (lt_of_lt_of_le hc ?_)
  calc (256 : Nat) = 2 ^ 8 := by norm_num
    _ ≤ 2 ^ j := Nat.pow_le_pow_right (by norm_num) hj

theorem or_two_pow_mod_mod (c g a b : Nat) (hc : c < 2 ^ a) (hag : a ≤ g) :
    (c ||| 2 ^ g % 2 ^ b) % 2 ^ a = c := by
  apply Nat.eq_of_testBit_eq
  intro j
  rw [Nat.testBit_mod_two_pow, Nat.testBit_or, Nat.testBit_mod_two_pow,
      Nat.testBit_two_pow]
  by_cases hj : j < a
  · have hg : ¬ (g = j) := by omega
    simp [hj, hg]
  · have hcj : c.testBit j = false :=
      Nat.testBit_lt_two_pow
        (lt_of_lt_of_le hc (Nat.pow_le_pow_right (by norm_num) (by omega)))
    simp [hj, hcj]

theorem and_xor_two_pow_mod (c g a b : Nat) (hc : c < 2 ^ a) (hab : a ≤ b)
    (hbit : c.testBit g = false) :
    (c &&& ((2 ^ b - 1) ^^^ 2 ^ g % 2 ^ b)) % 2 ^ a = c := by
  apply Nat.eq_of_testBit_eq
  intro j
  rw [Nat.testBit_mod_two_pow, Nat.testBit_and, Nat.testBit_xor,
      Nat.testBit_two_pow_sub_one, Nat.testBit_mod_two_pow, Nat.testBit_two_pow]
  by_cases hj : j < a
  · by_cases hg : g = j
    · subst hg
      simp [hj, hbit]
    · simp [hj, hg, (by omega : j < b)]
  · have hcj : c.testBit j = false :=
      Nat.testBit_lt_two_pow
        (lt_of_lt_of_le hc (Nat.pow_le_pow_right (by norm_num) (by omega)))
    simp [hj, hcj]

theorem toggle_two_pow_mod (c g a b : Nat) (hc : c < 2 ^ a) (hab : a ≤ b)
    (hbit : c.testBit g = false) :
    ((c ||| 2 ^ g % 2 ^ b) % 2 ^ a &&& ((2 ^ b - 1) ^^^ 2 ^ g % 2 ^ b)) % 2 ^ a = c := by
  apply Nat.eq_of_testBit_eq
  intro j
  rw [Nat.testBit_mod_two_pow, Nat.testBit_and, Nat.testBit_mod_two_pow,
      Nat.testBit_or, Nat.testBit_mod_two_pow, Nat.testBit_two_pow,
      Nat.testBit_xor, Nat.testBit_two_pow_sub_one, Nat.testBit_mod_two_pow,
      Nat.testBit_two_pow]
  by_cases hj : j < a
  · by_cases hg : g = j
    · subst hg
      simp [hj, hbit]
    · simp [hj, hg, (by omega : j < b)]
  · have hcj : c.testBit j = false :=
      Nat.testBit_lt_two_pow
        (lt_of_lt_of_le hc (Nat.pow_le_pow_right (by norm_num) (by omega)))
    simp [hj, hcj]

theorem pixel_on_high (c g : Nat) (hc : c < 256) (h8 : 8 ≤ g) :
    (c ||| (HIGH <<< g) % 2 ^ 32) % 256 = c := by
  rw [HIGH, Nat.shiftLeft_eq, one_mul, (by norm_num : (256 : Nat) = 2 ^ 8)]
  exact or_two_pow_mod_mod c g 8 32 (by simpa using hc) h8

theorem pixel_off_clear (c g : Nat) (hc : c < 256) (hbit : c.testBit g = false) :
    (c &&& ((2 ^ 32 - 1) ^^^ (HIGH <<< g) % 2 ^ 32)) % 256 = c := by
  rw [HIGH, Nat.shiftLeft_eq, one_mul, (by norm_num : (256 : Nat) = 2 ^ 8)]
  exact and_xor_two_pow_mod c g 8 32 (by simpa using hc) (by norm_num) hbit

theorem pixel_toggle (c g : Nat) (hc : c < 256) (hbit : c.testBit g = false) :
    ((c ||| (HIGH <<< g) % 2 ^ 32) % 256 &&&
      ((2 ^ 32 - 1) ^^^ (HIGH <<< g) % 2 ^ 32)) % 256 = c := by
  rw [HIGH, Nat.shiftLeft_eq, one_mul, (by norm_num : (256 : Nat) = 2 ^ 8)]
  exact toggle_two_pow_mod c g 8 32 (by simpa using hc) (by norm_num) hbit

theorem setPixel_pos_true (s : MAX72) (d g : Nat) (h : 1 < s.numDigits) :
    setPixel s d g true =
      cacheWrite s d (s.displayCache d ||| (HIGH <<< g) % 2 ^ 32) := by
  have hb : boundsGuard d s.numDigits = true := by
    rw [boundsGuard_eq]; simpa using h
  rw [setPixel, if_pos hb]
  rfl

theorem setPixel_pos_false (s : MAX72) (d g : Nat) (h : 1 < s.numDigits) :
    setPixel s d g false =
      cacheWrite s d
        (s.displayCache d &&& ((2 ^ 32 - 1) ^^^ (HIGH <<< g) % 2 ^ 32)) := by
  have hb : boundsGuard d s.numDigits = true := by
    rw [boundsGuard_eq]; simpa using h
  rw [setPixel, if_pos hb]
  rfl

theorem pow_mod_256 (j : Nat) (hj : j < 8) : 2 ^ j % 256 = 2 ^ j :=
  Nat.mod_eq_of_lt (lt_of_le_of_lt
    (Nat.pow_le_pow_right (by norm_num) (by omega) : 2 ^ j ≤ 2 ^ 7) (by norm_num))

/-! Claim theorems. -/

/-- Claim C6: setIntensity ignores every argument above 15 (no register write,
so the previously-set intensity register value is unchanged) and writes every
argument in 0-15 to the intensity register. -/
theorem setIntensity_range_spec (s : MAX72) (n : Nat) (hn : n < 256) :
    (15 < n → setIntensity s n = s ∧
      lastWrite INTENSITY (setIntensity s n).writes = lastWrite INTENSITY s.writes) ∧
    (n ≤ 15 → (setIntensity s n).writes = s.writes ++ [(INTENSITY, n)]) := by
  constructor
  · intro h
    have he : setIntensity s n = s := by rw [setIntensity, if_neg (by omega)]
    exact ⟨he, by rw [he]⟩
  · intro h
    rw [setIntensity, if_pos (by omega), writeRegister]

/-- Witness for claim C6 at the out-of-range intensity 16 on a fresh 8-digit
driver. -/
theorem setIntensity_range_spec_witness :
    (15 < 16 → setIntensity (construct 0 8 (fun _ => 0)) 16 = construct 0 8 (fun _ => 0) ∧
      lastWrite INTENSITY (setIntensity (construct 0 8 (fun _ => 0)) 16).writes
        = lastWrite INTENSITY (construct 0 8 (fun _ => 0)).writes) ∧
    (16 ≤ 15 → (setIntensity (construct 0 8 (fun _ => 0)) 16).writes
        = (construct 0 8 (fun _ => 0)).writes ++ [(INTENSITY, 16)]) :=
  setIntensity_range_spec (construct 0 8 (fun _ => 0)) 16 (by decide)

/-- Claim C2 counterexample: on a freshly constructed 1-digit driver,
setDigit(0, 5) with 0 < digitCount leaves the state entirely unchanged (the
mis-parsed guard 1 < numDigits is false), so the cache entry stays 0 and no
register write (1, 5) is issued. -/
theorem setDigit_one_digit_cex :
    setDigit (construct 0 1 (fun _ => 0)) 0 5 = construct 0 1 (fun _ => 0) ∧
    (construct 0 1 (fun _ => 0)).displayCache 0 = 0 :=
  ⟨rfl, rfl⟩

/-- Claim C2 (amended): for every driver with digitCount in 2-8 and every
digit index i < digitCount and byte v, after setDigit(i, v) the cache entry
at i equals v and the last register write issued was (i+1, v).  (For
digitCount 1 the mis-parsed bounds guard makes setDigit a no-op.) -/
theorem setDigit_spec (s : MAX72) (i v : Nat) (h2 : 2 ≤ s.numDigits)
    (h8 : s.numDigits ≤ 8) (hi : i < s.numDigits) (hv : v < 256) :
    (setDigit s i v).displayCache i = v ∧
    (setDigit s i v).writes = s.writes ++ [(DIGITREGISTER i, v)] := by
  rw [setDigit_pos s i v (by omega), cacheWrite_def]
  constructor
  · dsimp only
    rw [Function.update_same, Nat.mod_eq_of_lt hv]
  · dsimp only
    rw [Nat.mod_eq_of_lt hv]

/-- Witness for claim C2 on an 8-digit driver, digit 3, value 0x55. -/
theorem setDigit_spec_witness :
    (setDigit (construct 0 8 (fun _ => 0)) 3 0x55).displayCache 3 = 0x55 ∧
    (setDigit (construct 0 8 (fun _ => 0)) 3 0x55).writes
      = (construct 0 8 (fun _ => 0)).writes ++ [(DIGITREGISTER 3, 0x55)] :=
  setDigit_spec (construct 0 8 (fun _ => 0)) 3 0x55 (by decide) (by decide)
    (by decide) (by decide)

/-- Claim C3 counterexample: the guard is not a tautological no-op for every
digitCount in 1-8.  At digitCount 1 it evaluates false, so setPixel takes its
early return and setDigit mutates nothing. -/
theorem boundsGuard_one_digit_cex :
    boundsGuard 0 1 = false ∧
    setPixel (construct 0 1 (fun _ => 0)) 0 0 true = construct 0 1 (fun _ => 0) ∧
    setDigit (construct 0 1 (fun _ => 0)) 0 9 = construct 0 1 (fun _ => 0) :=
  ⟨rfl, rfl, rfl⟩

/-- Claim C3 (amended): the guard 0 <= digit < numDigits parses as
(0 <= digit) < numDigits, equal to 1 < numDigits independently of the index;
it is true for every index and every digitCount in 2-8 (so setDigit mutates
the cache entry at any index and issues a register write, and setPixel never
takes its early return), and false for digitCount 1 (both operations become
no-ops). -/
theorem boundsGuard_spec (s : MAX72) (d v g : Nat) (b : Bool) (hv : v < 256) :
    boundsGuard d s.numDigits = decide (1 < s.numDigits) ∧
    (2 ≤ s.numDigits → s.numDigits ≤ 8 →
      (setDigit s d v).displayCache d = v ∧
      (setDigit s d v).writes = s.writes ++ [(DIGITREGISTER d, v)] ∧
      (setPixel s d g b).writes.length = s.writes.length + 1) ∧
    (s.numDigits = 1 → setDigit s d v = s ∧ setPixel s d g b = s) := by
  refine ⟨boundsGuard_eq d s.numDigits, ?_, ?_⟩
  · intro h2 h8
    refine ⟨?_, ?_, ?_⟩
    · rw [setDigit_pos s d v (by omega), cacheWrite_def]
      dsimp only
      rw [Function.update_same, Nat.mod_eq_of_lt hv]
    · rw [setDigit_pos s d v (by omega), cacheWrite_def]
      dsimp only
      rw [Nat.mod_eq_of_lt hv]
    · cases b
      · rw [setPixel_pos_false s d g (by omega), cacheWrite_def]
        simp
      · rw [setPixel_pos_true s d g (by omega), cacheWrite_def]
        simp
  · intro h1
    exact ⟨setDigit_neg s d v (by omega), setPixel_neg s d g b (by omega)⟩

/-- Witness for claim C3 on a 2-digit driver at index 0. -/
theorem boundsGuard_spec_witness :
    boundsGuard 0 (construct 0 2 (fun _ => 0)).numDigits
      = decide (1 < (construct 0 2 (fun _ => 0)).numDigits) ∧
    (2 ≤ (construct 0 2 (fun _ => 0)).numDigits →
      (construct 0 2 (fun _ => 0)).numDigits ≤ 8 →
      (setDigit (construct 0 2 (fun _ => 0)) 0 5).displayCache 0 = 5 ∧
      (setDigit (construct 0 2 (fun _ => 0)) 0 5).writes
        = (construct 0 2 (fun _ => 0)).writes ++ [(DIGITREGISTER 0, 5)] ∧
      (setPixel (construct 0 2 (fun _ => 0)) 0 0 true).writes.length
        = (construct 0 2 (fun _ => 0)).writes.length + 1) ∧
    ((construct 0 2 (fun _ => 0)).numDigits = 1 →
      setDigit (construct 0 2 (fun _ => 0)) 0 5 = construct 0 2 (fun _ => 0) ∧
      setPixel (construct 0 2 (fun _ => 0)) 0 0 true = construct 0 2 (fun _ => 0)) :=
  boundsGuard_spec (construct 0 2 (fun _ => 0)) 0 5 0 true (by decide)

/-- Claim C8 counterexample: on a 1-digit driver whose uninitialized cache
bytes happen to be 7, dispClear leaves cache entry 7 equal to 7 (not 0) and
issues no write at all to digit register 8. -/
theorem dispClear_partial_cex :
    (dispClear (construct 0 1 (fun _ => 7))).displayCache 7 = 7 ∧
    ((dispClear (construct 0 1 (fun _ => 7))).writes.filter
      (fun p => p.1 = DIGITREGISTER 7)).length = 0 := by
  constructor
  · decide
  · decide

/-- Claim C8 (amended): for every driver with digitCount in 1-8, dispClear
zeroes the cache entries below digitCount (entries digitCount-7 are
untouched) and issues one write of 0 to each digit register 1..digitCount. -/
theorem dispClear_spec (s : MAX72) (h1 : 1 ≤ s.numDigits) (h8 : s.numDigits ≤ 8) :
    (∀ i, i < s.numDigits → (dispClear s).displayCache i = 0) ∧
    (dispClear s).writes = s.writes ++
      (List.range s.numDigits).map (fun i => (DIGITREGISTER i, 0)) := by
  rw [dispClear_char]
  constructor
  · intro i hi
    dsimp only
    rw [if_pos hi]
  · rfl

/-- Witness for claim C8 on an 8-digit driver after setting all rows. -/
theorem dispClear_spec_witness :
    (∀ i, i < (setRows (construct 0 8 (fun _ => 0)) 0xff).numDigits →
      (dispClear (setRows (construct 0 8 (fun _ => 0)) 0xff)).displayCache i = 0) ∧
    (dispClear (setRows (construct 0 8 (fun _ => 0)) 0xff)).writes
      = (setRows (construct 0 8 (fun _ => 0)) 0xff).writes ++
        (List.range (setRows (construct 0 8 (fun _ => 0)) 0xff).numDigits).map
          (fun i => (DIGITREGISTER i, 0)) :=
  dispClear_spec (setRows (construct 0 8 (fun _ => 0)) 0xff) (by decide) (by decide)

theorem matrix_cell (dm gm i : Nat) (hi : i < 8) (hg : gm < 256) :
    (if (2 ^ i % 256) &&& dm ≠ 0 then gm else 0x0) % 256
      = if dm.testBit i then gm else 0 := by
  rw [pow_mod_256 i hi]
  by_cases hb : dm.testBit i
  · rw [if_pos ((two_pow_and_ne_zero i dm).mpr hb), if_pos hb, Nat.mod_eq_of_lt hg]
  · rw [if_neg (fun hcon => hb ((two_pow_and_ne_zero i dm).mp hcon)), if_neg hb]

/-- Claim C9: dispRefresh leaves every cache entry unchanged and issues
exactly digitCount register writes, one per digit register in ascending digit
order, each carrying the current cache value; in particular right after
dispClear it appends digitCount writes of value 0 in ascending order. -/
theorem dispRefresh_spec (s : MAX72) (h1 : 1 ≤ s.numDigits) (h8 : s.numDigits ≤ 8) :
    (dispRefresh s).displayCache = s.displayCache ∧
    (dispRefresh s).writes = s.writes ++
      (List.range s.numDigits).map (fun i => (DIGITREGISTER i, s.displayCache i)) ∧
    (dispRefresh (dispClear s)).writes = (dispClear s).writes ++
      (List.range s.numDigits).map (fun i => (DIGITREGISTER i, 0)) := by
  refine ⟨by rw [dispRefresh_char], by rw [dispRefresh_char], ?_⟩
  rw [dispRefresh_char]
  have hn : (dispClear s).numDigits = s.numDigits := by rw [dispClear_char]
  rw [hn]
  dsimp only
  congr 1
  apply List.map_congr_left
  intro i hi
  have hi' : i < s.numDigits := List.mem_range.mp hi
  rw [dispClear_char]
  dsimp only
  rw [if_pos hi']

/-- Witness for claim C9 on an 8-digit driver with a nonzero pattern. -/
theorem dispRefresh_spec_witness :
    (dispRefresh (setRows (construct 0 8 (fun _ => 0)) 0x5a)).displayCache
      = (setRows (construct 0 8 (fun _ => 0)) 0x5a).displayCache ∧
    (dispRefresh (setRows (construct 0 8 (fun _ => 0)) 0x5a)).writes
      = (setRows (construct 0 8 (fun _ => 0)) 0x5a).writes ++
        (List.range (setRows (construct 0 8 (fun _ => 0)) 0x5a).numDigits).map
          (fun i => (DIGITREGISTER i,
            (setRows (construct 0 8 (fun _ => 0)) 0x5a).displayCache i)) ∧
    (dispRefresh (dispClear (setRows (construct 0 8 (fun _ => 0)) 0x5a))).writes
      = (dispClear (setRows (construct 0 8 (fun _ => 0)) 0x5a)).writes ++
        (List.range (setRows (construct 0 8 (fun _ => 0)) 0x5a).numDigits).map
          (fun i => (DIGITREGISTER i, 0)) :=
  dispRefresh_spec (setRows (construct 0 8 (fun _ => 0)) 0x5a) (by decide) (by decide)

/-- Claim C5: on an 8-digit driver, for all byte masks, after
setMatrix(digitMask, segmentMask) the cache entry at each digit i is
segmentMask when bit i of digitMask is set and 0 otherwise, and one register
write is issued for every digit i whether or not its value changed. -/
theorem setMatrix_spec (s : MAX72) (dm gm : Nat) (h8 : s.numDigits = 8)
    (hd : dm < 256) (hg : gm < 256) :
    (∀ i, i < 8 → (setMatrix s dm gm).displayCache i
        = if dm.testBit i then gm else 0) ∧
    (setMatrix s dm gm).writes = s.writes ++
      (List.range 8).map (fun i => (DIGITREGISTER i, if dm.testBit i then gm else 0)) := by
  rw [setMatrix_char, h8]
  constructor
  · intro i hi
    dsimp only
    rw [if_pos hi]
    exact matrix_cell dm gm i hi hg
  · dsimp only
    congr 1
    apply List.map_congr_left
    intro i hi
    have hi' : i < 8 := List.mem_range.mp hi
    rw [matrix_cell dm gm i hi' hg]

/-- Witness for claim C5 at digitMask 0xAA, segmentMask 0x0F. -/
theorem setMatrix_spec_witness :
    (∀ i, i < 8 → (setMatrix (construct 0 8 (fun _ => 0)) 0xAA 0x0F).displayCache i
        = if (0xAA : Nat).testBit i then 0x0F else 0) ∧
    (setMatrix (construct 0 8 (fun _ => 0)) 0xAA 0x0F).writes
      = (construct 0 8 (fun _ => 0)).writes ++
        (List.range 8).map
          (fun i => (DIGITREGISTER i, if (0xAA : Nat).testBit i then 0x0F else 0)) :=
  setMatrix_spec (construct 0 8 (fun _ => 0)) 0xAA 0x0F (by decide) (by decide) (by decide)

/-- Claim C7: for every driver state with digitCount at most 8 and every
segment mask, setRows(segmentMask) produces exactly the same state (cache and
write sequence) as setMatrix(0xFF, segmentMask). -/
theorem setRows_eq_setMatrix_ff (s : MAX72) (g : Nat) (h8 : s.numDigits ≤ 8) :
    setRows s g = setMatrix s 0xff g := by
  have hcond : ∀ j, j < 8 → (2 ^ j % 256) &&& 0xff ≠ 0 := by
    intro j hj
    rw [pow_mod_256 j hj, two_pow_and_ne_zero,
        (by norm_num : (0xff : Nat) = 2 ^ 8 - 1), Nat.testBit_two_pow_sub_one]
    simp [hj]
  rw [setRows_char, setMatrix_char]
  refine MAX72.ext rfl ?_ ?_
  · funext j
    dsimp only
    by_cases hj : j < s.numDigits
    · rw [if_pos hj, if_pos hj, if_pos (hcond j (by omega))]
    · rw [if_neg hj, if_neg hj]
  · dsimp only
    congr 1
    apply List.map_congr_left
    intro i hi
    have hi' : i < s.numDigits := List.mem_range.mp hi
    rw [if_pos (hcond i (by omega))]

/-- Witness for claim C7 on an 8-digit driver with segment mask 1. -/
theorem setRows_eq_setMatrix_ff_witness :
    setRows (construct 0 8 (fun _ => 0)) 1 = setMatrix (construct 0 8 (fun _ => 0)) 0xff 1 :=
  setRows_eq_setMatrix_ff (construct 0 8 (fun _ => 0)) 1 (by decide)

/-- Claim C4 counterexample: with the cache entry at digit 0 already 1 (bit 0
set), setPixel(0, 0, true) then setPixel(0, 0, false) leaves the entry 0, not
its prior value 1: the round trip does not hold for every driver state. -/
theorem setPixel_roundtrip_cex :
    (setPixel (setPixel (setRows (construct 0 8 (fun _ => 0)) 1) 0 0 true)
        0 0 false).displayCache 0
      ≠ (setRows (construct 0 8 (fun _ => 0)) 1).displayCache 0 := by
  decide

/-- Claim C4 (amended): setPixel(d, s, true) then setPixel(d, s, false)
restores the cache entry at d to its prior value whenever bit s of that prior
value was clear (the pair of calls always clears bit s, so a previously set
bit is lost; with the bit clear beforehand, the round trip is exact). -/
theorem setPixel_roundtrip (s : MAX72) (d g : Nat)
    (hc : s.displayCache d < 256)
    (hbit : (s.displayCache d).testBit g = false) :
    (setPixel (setPixel s d g true) d g false).displayCache d
      = s.displayCache d := by
  by_cases hn : 1 < s.numDigits
  · rw [setPixel_pos_true s d g hn]
    have hn2 : 1 < (cacheWrite s d (s.displayCache d ||| (HIGH <<< g) % 2 ^ 32)).numDigits := hn
    rw [setPixel_pos_false _ d g hn2, cacheWrite_def, cacheWrite_def]
    dsimp only
    rw [Function.update_same, Function.update_same]
    exact pixel_toggle (s.displayCache d) g hc hbit
  · have hle : s.numDigits ≤ 1 := by omega
    rw [setPixel_neg s d g true hle, setPixel_neg s d g false hle]

/-- Witness for claim C4 on a cleared 8-digit driver at digit 0, segment 0. -/
theorem setPixel_roundtrip_witness :
    (setPixel (setPixel (construct 0 8 (fun _ => 0)) 0 0 true) 0 0 false).displayCache 0
      = (construct 0 8 (fun _ => 0)).displayCache 0 :=
  setPixel_roundtrip (construct 0 8 (fun _ => 0)) 0 0 (by decide) (by decide)

/-- Claim C10 counterexample: on a 1-digit driver the mis-parsed guard makes
setPixel return early, so setPixel(0, 8, true) leaves the state unchanged and
issues no register write at all, contradicting that a write is always
issued. -/
theorem setPixel_high_segment_cex :
    setPixel (construct 0 1 (fun _ => 0)) 0 8 true = construct 0 1 (fun _ => 0) :=
  rfl

/-- Claim C10 (amended): for digitCount 2-8 (where the guard passes), every
segment value s with 8 <= s < 32 and every state flag, setPixel(d, s, state)
leaves the cache entry at d unchanged (the shifted bit falls outside the
8-bit byte) but still issues a register write carrying the unchanged cache
value; for digitCount 1 setPixel returns early and issues no write. -/
theorem setPixel_high_segment (s : MAX72) (d g : Nat) (b : Bool)
    (hn : 1 < s.numDigits) (hg8 : 8 ≤ g) (hg32 : g < 32) (hd : d < 8)
    (hc : s.displayCache d < 256) :
    (setPixel s d g b).displayCache d = s.displayCache d ∧
    (setPixel s d g b).writes = s.writes ++ [(DIGITREGISTER d, s.displayCache d)] := by
  cases b
  · have hbit : (s.displayCache d).testBit g = false :=
      testBit_of_lt_256 (s.displayCache d) g hc hg8
    rw [setPixel_pos_false s d g hn, cacheWrite_def]
    constructor
    · dsimp only
      rw [Function.update_same]
      exact pixel_off_clear (s.displayCache d) g hc hbit
    · dsimp only
      rw [pixel_off_clear (s.displayCache d) g hc hbit]
  · rw [setPixel_pos_true s d g hn, cacheWrite_def]
    constructor
    · dsimp only
      rw [Function.update_same]
      exact pixel_on_high (s.displayCache d) g hc hg8
    · dsimp only
      rw [pixel_on_high (s.displayCache d) g hc hg8]

/-- Witness for claim C10 on an 8-digit driver at digit 2, segment 9. -/
theorem setPixel_high_segment_witness :
    (setPixel (setRows (construct 0 8 (fun _ => 0)) 0x7f) 2 9 true).displayCache 2
      = (setRows (construct 0 8 (fun _ => 0)) 0x7f).displayCache 2 ∧
    (setPixel (setRows (construct 0 8 (fun _ => 0)) 0x7f) 2 9 true).writes
      = (setRows (construct 0 8 (fun _ => 0)) 0x7f).writes ++
        [(DIGITREGISTER 2, (setRows (construct 0 8 (fun _ => 0)) 0x7f).displayCache 2)] :=
  setPixel_high_segment (setRows (construct 0 8 (fun _ => 0)) 0x7f) 2 9 true
    (by decide) (by decide) (by decide) (by decide) (by decide)

theorem cacheInv_applyOp (s : MAX72) (op : Op) (h : cacheInv s) :
    cacheInv (applyOp s op) := by
  cases op with
  | clear =>
    exact foldl_preserve cacheInv _ (fun a b ha => cacheInv_cacheWrite a b 0x0 ha) _ s h
  | all =>
    exact foldl_preserve cacheInv _ (fun a b ha => cacheInv_cacheWrite a b 0xff ha) _ s h
  | refresh =>
    exact foldl_preserve cacheInv _ (fun a b ha => cacheInv_writeRegister_cache a b ha) _ s h
  | intensity n =>
    show cacheInv (setIntensity s n)
    rw [setIntensity]
    split
    · exact cacheInv_writeRegister_high s INTENSITY n (by norm_num [INTENSITY]) h
    · exact h
  | digitSet d v =>
    show cacheInv (setDigit s d v)
    rw [setDigit]
    split
    · exact cacheInv_cacheWrite s d v h
    · exact h
  | matrix d g =>
    refine foldl_preserve cacheInv _ ?_ _ s h
    intro a b ha
    dsimp only
    split
    · exact cacheInv_cacheWrite a b g ha
    · exact cacheInv_cacheWrite a b 0x0 ha
  | rows g =>
    exact foldl_preserve cacheInv _ (fun a b ha => cacheInv_cacheWrite a b g ha) _ s h
  | columns d =>
    refine foldl_preserve cacheInv _ ?_ _ s h
    intro a b ha
    dsimp only
    split
    · exact cacheInv_cacheWrite a b 0xff ha
    · exact cacheInv_cacheWrite a b 0x0 ha
  | pixel d g b =>
    show cacheInv (setPixel s d g b)
    rw [setPixel]
    split
    · split
      · exact cacheInv_cacheWrite s d _ h
      · exact cacheInv_cacheWrite s d _ h
    · exact h

theorem cacheInv_construct (cs nd : Nat) (c0 : Nat → Nat) :
    cacheInv (construct cs nd c0) := by
  have h0 : cacheInv
      { numDigits := nd, displayCache := fun i => c0 i % 256, writes := [] } := by
    intro i hi v hv
    simp [lastWrite] at hv
  unfold construct
  apply cacheInv_writeRegister_high _ _ _ (by norm_num [SHUTDOWN])
  apply cacheInv_writeRegister_high _ _ _ (by norm_num [INTENSITY])
  apply cacheInv_writeRegister_high _ _ _ (by norm_num [DECODEMODE])
  apply cacheInv_writeRegister_high _ _ _ (by norm_num [SCANLIMIT])
  apply foldl_preserve cacheInv _ (fun a b ha => cacheInv_cacheWrite a b 0x0 ha)
  apply cacheInv_writeRegister_high _ _ _ (by norm_num [SHUTDOWN])
  exact h0

/-- Claim C1: cache-hardware consistency.  After construction with digitCount
in 1-8 and after any sequence of public operations with in-range arguments,
every digit slot i < 8 whose digit register i+1 has ever been written holds
exactly the value of the most recent register write to that register. -/
theorem max72_cache_consistency (cs nd : Nat) (c0 : Nat → Nat) (ops : List Op)
    (h1 : 1 ≤ nd) (h8 : nd ≤ 8) (hval : ops.all validOp = true) :
    cacheInv (applyOps (construct cs nd c0) ops) :=
  foldl_preserve cacheInv applyOp (fun a b ha => cacheInv_applyOp a b ha) ops
    (construct cs nd c0) (cacheInv_construct cs nd c0)

/-- Witness for claim C1: an 8-digit driver run through a sample of every
kind of public operation. -/
theorem max72_cache_consistency_witness :
    cacheInv (applyOps (construct 0 8 (fun _ => 0))
      [Op.digitSet 3 0x55, Op.pixel 3 0 true, Op.intensity 7, Op.refresh,
       Op.matrix 0xAA 0x0F, Op.rows 0x81, Op.columns 0x10, Op.all,
       Op.clear, Op.intensity 200, Op.pixel 6 20 false]) :=
  max72_cache_consistency 0 8 (fun _ => 0)
    [Op.digitSet 3 0x55, Op.pixel 3 0 true, Op.intensity 7, Op.refresh,
     Op.matrix 0xAA 0x0F, Op.rows 0x81, Op.columns 0x10, Op.all,
     Op.clear, Op.intensity 200, Op.pixel 6 20 false]
    (by decide) (by decide) (by decide)
